import Mathlib

/-!
Shallow embedding of the geocoding pipeline of `CyberLabCaseTracker.py`:
the persistent geocode cache (`get_cached_location_db`,
`add_cached_location_db`), the grouping of case records by (city, state),
marker placement (`_place_map_marker`), the background geocoding worker
(`_geocode_locations_worker`), and the map-refresh orchestrator
(`load_map_markers` together with the `_process_geocoding_results` polling
loop, run to completion).

Modelling conventions:
* SQLite REAL coordinates are modelled as `Rat`.
* The geocache table is a list of rows; `INSERT OR REPLACE` on the
  primary key `location_key` is modelled by consing the new row and
  filtering out any old row with the same key.
* Python exceptions inside the `try`/`except` blocks are modelled by
  explicit oracles: `dbError` for a failing cache read (caught and turned
  into a miss), `writeOk` for a failing cache write (caught and turned
  into `False`), and a `GeoOutcome` value for the provider call
  (success / no match / raised exception, all caught by the worker).
* The single background thread plus the 500 ms polling loop are run to
  completion sequentially: the worker drains its whole queue, then the
  poller drains the whole results buffer.
-/

namespace CyberLab

/-- The fields of a case record read by the map/geocoding subsystem
(`city_of_offense`, `state_of_offense`, `offense_type`); `id` is the row
identity.  All other columns of `case_log` are never read by this
pipeline. A missing/NULL column is `none`; `Option.getD ""` models the
Python `case.get(...) or ''` coalescing. -/
structure CaseRecord where
  id : Nat
  city_of_offense : Option String
  state_of_offense : Option String
  offense_type : Option String
deriving DecidableEq

/-- One row of the `geocache` table:
`(location_key TEXT PRIMARY KEY, latitude REAL, longitude REAL, last_accessed TEXT)`. -/
structure GeoEntry where
  location_key : String
  latitude : Rat
  longitude : Rat
  last_accessed : String
deriving DecidableEq

/-- The `geocache` table. The primary-key constraint (at most one row per
`location_key`) holds for every state reachable through
`add_cached_location_db`. -/
abbrev Geocache := List GeoEntry

/-- Source function `get_cached_location_db(location_key)` (lines 197-219):
`SELECT latitude, longitude FROM geocache WHERE location_key = ?`,
returning the pair on a hit and `None` on a miss; any exception is caught,
logged and turned into `None` (`dbError` models such an exception). -/
def get_cached_location_db (dbError : Bool) (cache : Geocache) (location_key : String) :
    Option (Rat × Rat) :=
  if dbError then none
  else
    match cache.find? (fun e => e.location_key == location_key) with
    | some e => some (e.latitude, e.longitude)
    | none => none

/-- Source function `add_cached_location_db(location_key, latitude, longitude)` (source
lines 221-240): `INSERT OR REPLACE INTO geocache VALUES (?, ?, ?, ?)` with
`last_accessed = now`, returning `True`; any exception is caught, logged
and turned into `False` with the table unchanged (`writeOk = false`
models such an exception). -/
def add_cached_location_db (writeOk : Bool) (now : String) (cache : Geocache)
    (location_key : String) (latitude longitude : Rat) : Geocache × Bool :=
  if writeOk then
    (⟨location_key, latitude, longitude, now⟩ ::
       cache.filter (fun e => !(e.location_key == location_key)), true)
  else (cache, false)

/-- The cache key `f"{city}|{state}"`. -/
def locationKey (city state : String) : String := city ++ "|" ++ state

/-- Python's `str.strip()`: drop whitespace from both ends.  Implemented
over the character list so that it evaluates by kernel reduction. -/
def pyStrip (s : String) : String :=
  String.mk (((s.data.dropWhile Char.isWhitespace).reverse.dropWhile
      Char.isWhitespace).reverse)

/-- Lexicographic code-point comparison of character lists, the order
Python's `sorted` uses on strings. -/
def charListLe : List Char → List Char → Bool
  | [], _ => true
  | _ :: _, [] => false
  | a :: as, b :: bs =>
    if a.toNat < b.toNat then true
    else if b.toNat < a.toNat then false
    else charListLe as bs

/-- Python's `<=` on strings (code-point lexicographic order). -/
def pyStrLe (s t : String) : Bool := charListLe s.data t.data

/-- The body of the grouping loop of `load_map_markers` (source lines
1296-1304): trim `city_of_offense` and `state_of_offense` (with
`... or ''` coalescing of missing values) and skip the record when either
is empty; otherwise its group key is the pair `(city, state)`. -/
def recordKey (c : CaseRecord) : Option (String × String) :=
  let city := pyStrip (c.city_of_offense.getD "")
  let state := pyStrip (c.state_of_offense.getD "")
  if city = "" ∨ state = "" then none else some (city, state)

/-- Python-`dict` key insertion order: a new key is appended, an existing
key keeps its position. -/
def insertKeyOnce (acc : List (String × String)) (k : String × String) :
    List (String × String) :=
  if k ∈ acc then acc else acc ++ [k]

/-- The keys of the `grouped` dictionary built by `load_map_markers`, in
first-occurrence order. -/
def groupKeys (cases : List CaseRecord) : List (String × String) :=
  (cases.filterMap recordKey).foldl insertKeyOnce []

/-- Python `self._grouped_cases_by_location.get((city, state), [])`: the records
grouped under one key, in record order. -/
def groupedCases (cases : List CaseRecord) (k : String × String) : List CaseRecord :=
  cases.filter (fun c => recordKey c == some k)

/-- The offense values collected by `_place_map_marker` (source line
1342): the records of one group whose raw `offense_type` is truthy
(non-empty), each stripped of surrounding whitespace. -/
def offenseValues (city_cases : List CaseRecord) : List String :=
  (city_cases.filter (fun c => !(c.offense_type.getD "" == ""))).map
    (fun c => pyStrip (c.offense_type.getD ""))

/-- Python `sorted(set(...))` over the offense values: the distinct values in
Python's code-point string order. -/
def offenses (city_cases : List CaseRecord) : List String :=
  List.insertionSort (fun a b => pyStrLe a b = true) (offenseValues city_cases).dedup

/-- Python `', '.join(offenses) if offenses else 'No offenses recorded'`
(source line 1343). -/
def offense_str (city_cases : List CaseRecord) : String :=
  if (offenses city_cases).isEmpty then "No offenses recorded"
  else String.intercalate ", " (offenses city_cases)

/-- Python `info_text = f"{city}, {state}\nOffense Types: {offense_str}"`
(source line 1344). -/
def info_text (city state : String) (city_cases : List CaseRecord) : String :=
  city ++ ", " ++ state ++ "\nOffense Types: " ++ offense_str city_cases

/-- A rendered map marker: its coordinates and the click-handler summary
text.  The icon is presentation glue and is not modelled. -/
structure MapMarker where
  lat : Rat
  lon : Rat
  info : String
deriving DecidableEq

/-- The marker `_place_map_marker` renders for one location. -/
def mkMarker (cases : List CaseRecord) (city state : String)
    (coords : Rat × Rat) : MapMarker :=
  ⟨coords.1, coords.2, info_text city state (groupedCases cases (city, state))⟩

/-- The dictionary `self.map_markers`, keyed by (city, state). -/
abbrev Markers := List ((String × String) × MapMarker)

/-- Python `dict` assignment `self.map_markers[(city, state)] = marker`. -/
def insertMarker (ms : Markers) (k : String × String) (m : MapMarker) : Markers :=
  if ms.any (fun e => e.1 == k) then
    ms.map (fun e => if e.1 = k then (k, m) else e)
  else ms ++ [(k, m)]

/-- Source function `_place_map_marker(city, state, coords)` (lines 1337-1355). -/
def place_map_marker (cases : List CaseRecord) (ms : Markers) (city state : String)
    (coords : Rat × Rat) : Markers :=
  insertMarker ms (city, state) (mkMarker cases city state coords)

/-- Place one marker per listed (key, coords) item, in order. -/
def placeAll (cases : List CaseRecord) (ms : Markers)
    (items : List ((String × String) × (Rat × Rat))) : Markers :=
  items.foldl (fun acc it => place_map_marker cases acc it.1.1 it.1.2 it.2) ms

/-- Outcome of one `geolocator.geocode(query, timeout=10)` call as the
worker observes it: a coordinate pair, a no-match (`None`), or a raised
exception (timeout, unavailability, ...) caught by the worker's
`except` clause. -/
inductive GeoOutcome where
  | success (lat lon : Rat)
  | noMatch
  | raised
deriving DecidableEq

/-- The environment of one worker run: the provider's behaviour per
(city, state), whether each cache write succeeds, whether each cache
read errors, and the timestamp written with cache entries. -/
structure GeoEnv where
  geocode : String → String → GeoOutcome
  writeOk : String → String → Bool
  readErr : String → Bool
  now : String

/-- One element of the buffer `self._geocoded_results`: `(city, state, coords)`. -/
structure GeoResult where
  city : String
  state : String
  lat : Rat
  lon : Rat
deriving DecidableEq

/-- What one queue item contributes to the results buffer. -/
def resultOf (env : GeoEnv) (p : String × String) : Option GeoResult :=
  match env.geocode p.1 p.2 with
  | .success lat lon => some ⟨p.1, p.2, lat, lon⟩
  | .noMatch => none
  | .raised => none

/-- The loop of `_geocode_locations_worker` (source lines 1363-1379): pop
one (city, state); on a successful lookup write the cache (the returned
success flag is ignored by the source) and append to the results buffer;
on a no-match or a raised exception log and continue; stop when the
queue is empty. -/
def workerGo (env : GeoEnv) : List (String × String) → Geocache → List GeoResult →
    Geocache × List GeoResult
  | [], cache, results => (cache, results)
  | (city, state) :: rest, cache, results =>
    match env.geocode city state with
    | .success lat lon =>
        workerGo env rest
          (add_cached_location_db (env.writeOk city state) env.now cache
            (locationKey city state) lat lon).1
          (results ++ [⟨city, state, lat, lon⟩])
    | .noMatch => workerGo env rest cache results
    | .raised => workerGo env rest cache results

/-- Source function `_geocode_locations_worker` (lines 1357-1379): reset
`self._geocoded_results` to `[]` — discarding `prevResults`, whatever a
previous run left behind — then drain the queue. -/
def geocode_locations_worker (env : GeoEnv) (queue : List (String × String))
    (cache : Geocache) (prevResults : List GeoResult) : Geocache × List GeoResult :=
  workerGo env queue cache []

/-- The cache probe of one grouped key in `load_map_markers` (source
line 1313). -/
def cacheLookup (env : GeoEnv) (cache : Geocache) (k : String × String) :
    Option (Rat × Rat) :=
  get_cached_location_db (env.readErr (locationKey k.1 k.2)) cache
    (locationKey k.1 k.2)

/-- The partition performed by the loop of `load_map_markers` (source
lines 1311-1319): keys with a cache hit (paired with their coordinates,
placed immediately) and keys enqueued for geocoding, both in grouped
order. -/
def splitCached (getC : String × String → Option (Rat × Rat)) :
    List (String × String) →
      List ((String × String) × (Rat × Rat)) × List (String × String)
  | [] => ([], [])
  | k :: rest =>
    let hm := splitCached getC rest
    match getC k with
    | some c => ((k, c) :: hm.1, hm.2)
    | none => (hm.1, k :: hm.2)

/-- The observable outcome of one completed map refresh: the final
marker dictionary, the queue handed to the worker, the cache after the
worker run, and the worker's results buffer as the poller drains it. -/
structure RefreshOut where
  markers : Markers
  pending : List (String × String)
  cache : Geocache
  results : List GeoResult
deriving DecidableEq

/-- Source function `load_map_markers` (lines 1284-1335) run to completion
together with its background worker and the `_process_geocoding_results`
polling loop (source lines 1381-1395): clear all markers, group the
records, place cache hits synchronously, and if any key missed the
cache run `_geocode_locations_worker` on the queue and let the poller
place a marker for every buffered result. -/
def load_map_markers (env : GeoEnv) (cases : List CaseRecord) (cache : Geocache)
    (prevResults : List GeoResult) : RefreshOut :=
  let grouped := groupKeys cases
  let hm := splitCached (cacheLookup env cache) grouped
  let markers0 := placeAll cases [] hm.1
  if hm.2.isEmpty then ⟨markers0, [], cache, []⟩
  else
    let wr := geocode_locations_worker env hm.2 cache prevResults
    ⟨placeAll cases markers0 (wr.2.map (fun r => ((r.city, r.state), (r.lat, r.lon)))),
     hm.2, wr.1, wr.2⟩

/-- Time at which each provider call is issued, starting at `t`: one call
per queue item, each followed by its own processing duration and the
fixed `time.sleep(1.0)` of the worker loop (source line 1379). -/
def callTimesFrom (t : Rat) : List Rat → List Rat
  | [] => []
  | d :: rest => t :: callTimesFrom (t + d + 1) rest

/-- Provider-call times of one worker run whose per-item processing
durations (pop + geocode call, success or failure alike) are `durs`. -/
def workerCallTimes (durs : List Rat) : List Rat := callTimesFrom 0 durs

/-- Wall-clock time at which the worker loop exits: every iteration adds
its processing duration plus the unconditional 1-second sleep. -/
def workerFinishTime (durs : List Rat) : Rat :=
  durs.foldl (fun t d => t + d + 1) 0

theorem charListLe_total : ∀ (a b : List Char),
    charListLe a b = true ∨ charListLe b a = true
  | [], _ => Or.inl rfl
  | _ :: _, [] => Or.inr rfl
  | a :: as, b :: bs => by
    rcases Nat.lt_trichotomy a.toNat b.toNat with h | h | h
    · left; simp [charListLe, h]
    · rcases charListLe_total as bs with ht | ht
      · left; simp [charListLe, h, ht]
      · right; simp [charListLe, h.symm, ht]
    · right; simp [charListLe, h]

theorem charListLe_trans : ∀ {a b c : List Char},
    charListLe a b = true → charListLe b c = true → charListLe a c = true
  | [], _, _, _, _ => rfl
  | _ :: _, [], _, h1, _ => by simp [charListLe] at h1
  | _ :: _, _ :: _, [], _, h2 => by simp [charListLe] at h2
  | a :: as, b :: bs, c :: cs, h1, h2 => by
    simp only [charListLe] at h1 h2 ⊢
    rcases Nat.lt_trichotomy a.toNat b.toNat with hab | hab | hab
    · rcases Nat.lt_trichotomy b.toNat c.toNat with hbc | hbc | hbc
      · rw [if_pos (show a.toNat < c.toNat by omega)]
      · rw [if_pos (show a.toNat < c.toNat by omega)]
      · rw [if_neg (show ¬ b.toNat < c.toNat by omega), if_pos hbc] at h2
        cases h2
    · rcases Nat.lt_trichotomy b.toNat c.toNat with hbc | hbc | hbc
      · rw [if_pos (show a.toNat < c.toNat by omega)]
      · rw [if_neg (show ¬ a.toNat < b.toNat by omega),
           if_neg (show ¬ b.toNat < a.toNat by omega)] at h1
        rw [if_neg (show ¬ b.toNat < c.toNat by omega),
           if_neg (show ¬ c.toNat < b.toNat by omega)] at h2
        rw [if_neg (show ¬ a.toNat < c.toNat by omega),
           if_neg (show ¬ c.toNat < a.toNat by omega)]
        exact charListLe_trans h1 h2
      · rw [if_neg (show ¬ b.toNat < c.toNat by omega), if_pos hbc] at h2
        cases h2
    · rw [if_neg (show ¬ a.toNat < b.toNat by omega), if_pos hab] at h1
      cases h1

theorem pyStrLe_total (s t : String) : pyStrLe s t = true ∨ pyStrLe t s = true :=
  charListLe_total s.data t.data

theorem pyStrLe_trans {s t u : String} (h1 : pyStrLe s t = true)
    (h2 : pyStrLe t u = true) : pyStrLe s u = true :=
  charListLe_trans h1 h2

theorem mem_foldl_insertKeyOnce (ks : List (String × String)) :
    ∀ (acc : List (String × String)) (x : String × String),
      x ∈ ks.foldl insertKeyOnce acc ↔ x ∈ acc ∨ x ∈ ks := by
  induction ks with
  | nil => simp
  | cons k t ih =>
    intro acc x
    rw [List.foldl_cons, ih]
    by_cases h : k ∈ acc
    · simp only [insertKeyOnce, if_pos h, List.mem_cons]
      constructor
      · rintro (hx | hx)
        · exact Or.inl hx
        · exact Or.inr (Or.inr hx)
      · rintro (hx | rfl | hx)
        · exact Or.inl hx
        · exact Or.inl h
        · exact Or.inr hx
    · simp only [insertKeyOnce, if_neg h, List.mem_append, List.mem_cons,
        List.mem_singleton]
      tauto

theorem nodup_foldl_insertKeyOnce (ks : List (String × String)) :
    ∀ (acc : List (String × String)), acc.Nodup → (ks.foldl insertKeyOnce acc).Nodup := by
  induction ks with
  | nil => exact fun acc h => h
  | cons k t ih =>
    intro acc hacc
    rw [List.foldl_cons]
    by_cases h : k ∈ acc
    · exact ih _ (by simpa [insertKeyOnce, h] using hacc)
    · refine ih _ ?_
      simp [insertKeyOnce, h, List.nodup_append, hacc, List.disjoint_singleton]

theorem groupKeys_nodup (cases : List CaseRecord) : (groupKeys cases).Nodup :=
  nodup_foldl_insertKeyOnce _ _ List.nodup_nil

theorem mem_groupKeys (cases : List CaseRecord) (k : String × String) :
    k ∈ groupKeys cases ↔ ∃ c ∈ cases, recordKey c = some k := by
  rw [groupKeys, mem_foldl_insertKeyOnce]
  simp [List.mem_filterMap]

theorem recordKey_eq_some_iff (c : CaseRecord) (k1 k2 : String) :
    recordKey c = some (k1, k2) ↔
      pyStrip (c.city_of_offense.getD "") = k1 ∧
      pyStrip (c.state_of_offense.getD "") = k2 ∧ k1 ≠ "" ∧ k2 ≠ "" := by
  simp only [recordKey]
  split_ifs with h
  · constructor
    · intro hx; cases hx
    · rintro ⟨h1, h2, h3, h4⟩
      rcases h with h | h
      · exact absurd (h1.symm.trans h) h3
      · exact absurd (h2.symm.trans h) h4
  · push_neg at h
    simp only [Option.some.injEq, Prod.mk.injEq]
    constructor
    · rintro ⟨h1, h2⟩
      exact ⟨h1, h2, h1 ▸ h.1, h2 ▸ h.2⟩
    · rintro ⟨h1, h2, _, _⟩
      exact ⟨h1, h2⟩

theorem chain_callTimesFrom (durs : List Rat) : ∀ t : Rat, (∀ d ∈ durs, 0 ≤ d) →
    List.Chain' (fun a b : Rat => a + 1 ≤ b) (callTimesFrom t durs) := by
  induction durs with
  | nil => intro t _; simp [callTimesFrom]
  | cons d rest ih =>
    intro t h
    rw [callTimesFrom]
    cases rest with
    | nil => simp [callTimesFrom]
    | cons d2 rest2 =>
      rw [callTimesFrom, List.chain'_cons]
      refine ⟨?_, ?_⟩
      · have hd : (0 : Rat) ≤ d := h d (List.mem_cons_self _ _)
        linarith
      · have hrest := ih (t + d + 1) (fun x hx => h x (List.mem_cons_of_mem _ hx))
        rwa [callTimesFrom] at hrest

theorem foldl_time_lower (durs : List Rat) : ∀ t : Rat, (∀ d ∈ durs, 0 ≤ d) →
    t + durs.length ≤ durs.foldl (fun a d => a + d + 1) t := by
  induction durs with
  | nil => intro t _; simp
  | cons d rest ih =>
    intro t h
    rw [List.foldl_cons, List.length_cons]
    have hd : (0 : Rat) ≤ d := h d (List.mem_cons_self _ _)
    have hrest := ih (t + d + 1) (fun x hx => h x (List.mem_cons_of_mem _ hx))
    push_cast at hrest ⊢
    linarith

/-- The results buffer a worker run appends is exactly what the queue
items contribute, in queue order. -/
theorem workerGo_results (env : GeoEnv) :
    ∀ (q : List (String × String)) (cache : Geocache) (res : List GeoResult),
      (workerGo env q cache res).2 = res ++ q.filterMap (resultOf env) := by
  intro q
  induction q with
  | nil => intro cache res; simp [workerGo]
  | cons p rest ih =>
    intro cache res
    obtain ⟨city, state⟩ := p
    cases hg : env.geocode city state <;>
      simp [workerGo, hg, ih, resultOf, List.filterMap_cons]

theorem add_cached_true (now : String) (cache : Geocache) (key : String)
    (lat lon : Rat) :
    (add_cached_location_db true now cache key lat lon).1
      = ⟨key, lat, lon, now⟩ :: cache.filter (fun e => !(e.location_key == key)) := rfl

theorem add_cached_false (now : String) (cache : Geocache) (key : String)
    (lat lon : Rat) :
    (add_cached_location_db false now cache key lat lon).1 = cache := rfl

/-- Any key present in the cache after a worker run was either present
before, or was written for some queue item whose lookup succeeded and
whose cache write succeeded. -/
theorem workerGo_cache_keys (env : GeoEnv) :
    ∀ (q : List (String × String)) (cache : Geocache) (res : List GeoResult)
      (k : String),
      k ∈ (workerGo env q cache res).1.map GeoEntry.location_key →
      k ∈ cache.map GeoEntry.location_key ∨
        ∃ p ∈ q, locationKey p.1 p.2 = k ∧ env.writeOk p.1 p.2 = true := by
  intro q
  induction q with
  | nil =>
    intro cache res k h
    left
    simpa [workerGo] using h
  | cons p rest ih =>
    intro cache res k h
    obtain ⟨city, state⟩ := p
    cases hg : env.geocode city state with
    | success lat lon =>
      rw [workerGo, hg] at h
      rcases ih _ _ k h with hin | ⟨p2, hp2, hk2, hw2⟩
      · cases hworked : env.writeOk city state with
        | false =>
          rw [hworked, add_cached_false] at hin
          exact Or.inl hin
        | true =>
          rw [hworked, add_cached_true, List.map_cons, List.mem_cons] at hin
          rcases hin with heq | hin
          · exact Or.inr ⟨(city, state), List.mem_cons_self _ _, heq.symm, hworked⟩
          · obtain ⟨e, he, hek⟩ := List.mem_map.mp hin
            exact Or.inl (List.mem_map.mpr ⟨e, (List.mem_filter.mp he).1, hek⟩)
      · exact Or.inr ⟨p2, List.mem_cons_of_mem _ hp2, hk2, hw2⟩
    | noMatch =>
      rw [workerGo, hg] at h
      rcases ih _ _ k h with hin | ⟨p2, hp2, hk2, hw2⟩
      · exact Or.inl hin
      · exact Or.inr ⟨p2, List.mem_cons_of_mem _ hp2, hk2, hw2⟩
    | raised =>
      rw [workerGo, hg] at h
      rcases ih _ _ k h with hin | ⟨p2, hp2, hk2, hw2⟩
      · exact Or.inl hin
      · exact Or.inr ⟨p2, List.mem_cons_of_mem _ hp2, hk2, hw2⟩

theorem insertMarker_append (ms : Markers) (k : String × String) (m : MapMarker)
    (hk : k ∉ ms.map Prod.fst) : insertMarker ms k m = ms ++ [(k, m)] := by
  rw [insertMarker, if_neg]
  intro hcon
  obtain ⟨e, he, heq⟩ := List.any_eq_true.mp hcon
  exact hk (beq_iff_eq.mp heq ▸ List.mem_map_of_mem Prod.fst he)

/-- Placing a list of fresh, pairwise-distinct keys appends one marker
per item, in order. -/
theorem placeAll_eq_append (cases : List CaseRecord) :
    ∀ (items : List ((String × String) × (Rat × Rat))) (ms : Markers),
      (∀ it ∈ items, it.1 ∉ ms.map Prod.fst) → (items.map Prod.fst).Nodup →
      placeAll cases ms items
        = ms ++ items.map (fun it => (it.1, mkMarker cases it.1.1 it.1.2 it.2)) := by
  intro items
  induction items with
  | nil => intro ms _ _; simp [placeAll]
  | cons it rest ih =>
    intro ms hdis hnd
    rw [List.map_cons, List.nodup_cons] at hnd
    have h1 : place_map_marker cases ms it.1.1 it.1.2 it.2
        = ms ++ [(it.1, mkMarker cases it.1.1 it.1.2 it.2)] :=
      insertMarker_append ms it.1 _ (hdis it (List.mem_cons_self _ _))
    have hstep : placeAll cases ms (it :: rest)
        = placeAll cases (ms ++ [(it.1, mkMarker cases it.1.1 it.1.2 it.2)]) rest := by
      rw [placeAll, placeAll, List.foldl_cons, h1]
    rw [hstep, ih _ ?_ hnd.2]
    · simp
    · intro it2 hit2
      rw [List.map_append, List.mem_append]
      rintro (hmem | hmem)
      · exact hdis it2 (List.mem_cons_of_mem _ hit2) hmem
      · rw [List.map_cons, List.map_nil, List.mem_singleton] at hmem
        exact hnd.1 (hmem ▸ List.mem_map_of_mem Prod.fst hit2)

theorem splitCached_hits_keys (g : String × String → Option (Rat × Rat)) :
    ∀ ks : List (String × String),
      (splitCached g ks).1.map Prod.fst = ks.filter (fun k => (g k).isSome) := by
  intro ks
  induction ks with
  | nil => rfl
  | cons k rest ih =>
    rw [splitCached]
    cases h : g k <;> simp [h, List.filter_cons, ih]

theorem splitCached_misses (g : String × String → Option (Rat × Rat)) :
    ∀ ks : List (String × String),
      (splitCached g ks).2 = ks.filter (fun k => !(g k).isSome) := by
  intro ks
  induction ks with
  | nil => rfl
  | cons k rest ih =>
    rw [splitCached]
    cases h : g k <;> simp [h, List.filter_cons, ih]

theorem splitCached_hits_sound (g : String × String → Option (Rat × Rat)) :
    ∀ ks : List (String × String), ∀ kc ∈ (splitCached g ks).1, g kc.1 = some kc.2 := by
  intro ks
  induction ks with
  | nil => intro kc h; cases h
  | cons k rest ih =>
    intro kc hkc
    rw [splitCached] at hkc
    cases h : g k with
    | some c =>
      rw [h] at hkc
      rcases List.mem_cons.mp hkc with rfl | hkc
      · exact h
      · exact ih kc hkc
    | none =>
      rw [h] at hkc
      exact ih kc hkc

/-- Under an always-successful provider, the worker's results cover the
queue exactly, in order. -/
theorem filterMap_resultOf_keys_of_success (env : GeoEnv)
    (hg : ∀ city state, ∃ lat lon,
        env.geocode city state = GeoOutcome.success lat lon) :
    ∀ q : List (String × String),
      (q.filterMap (resultOf env)).map (fun r => (r.city, r.state)) = q := by
  intro q
  induction q with
  | nil => rfl
  | cons p rest ih =>
    obtain ⟨lat, lon, h⟩ := hg p.1 p.2
    simp [List.filterMap_cons, resultOf, h, ih]

/-- The keys of the worker's results always form a sublist of the queue. -/
theorem filterMap_resultOf_keys_sublist (env : GeoEnv) :
    ∀ q : List (String × String),
      ((q.filterMap (resultOf env)).map (fun r => (r.city, r.state))).Sublist q := by
  intro q
  induction q with
  | nil => simp
  | cons p rest ih =>
    rw [List.filterMap_cons, resultOf]
    cases h : env.geocode p.1 p.2 with
    | success lat lon =>
      simpa using List.Sublist.cons₂ p ih
    | noMatch => exact List.Sublist.cons p ih
    | raised => exact List.Sublist.cons p ih

end CyberLab

namespace CyberLab

/-- Claim C6: Grouping during a refresh derives the unique (city, state)
set from the current case records with both fields trimmed; a record
whose trimmed city or trimmed state is empty (or missing) lands in no
group — it is filtered out, not an error. -/
theorem grouping_trims_and_filters (cases : List CaseRecord) :
    (groupKeys cases).Nodup ∧
    (∀ k : String × String, k ∈ groupKeys cases ↔ ∃ c ∈ cases,
        pyStrip (c.city_of_offense.getD "") = k.1 ∧
        pyStrip (c.state_of_offense.getD "") = k.2 ∧ k.1 ≠ "" ∧ k.2 ≠ "") ∧
    (∀ c ∈ cases,
        (pyStrip (c.city_of_offense.getD "") = "" ∨
         pyStrip (c.state_of_offense.getD "") = "") →
        ∀ k, c ∉ groupedCases cases k) := by
  refine ⟨groupKeys_nodup cases, fun k => ?_, fun c _ hblank k hmem => ?_⟩
  · obtain ⟨k1, k2⟩ := k
    rw [mem_groupKeys]
    constructor
    · rintro ⟨c, hc, hkey⟩
      exact ⟨c, hc, (recordKey_eq_some_iff c k1 k2).mp hkey⟩
    · rintro ⟨c, hc, hprops⟩
      exact ⟨c, hc, (recordKey_eq_some_iff c k1 k2).mpr hprops⟩
  · rw [groupedCases, List.mem_filter] at hmem
    have hkey : recordKey c = some k := by simpa using hmem.2
    obtain ⟨k1, k2⟩ := k
    rcases (recordKey_eq_some_iff c k1 k2).mp hkey with ⟨h1, h2, h3, h4⟩
    rcases hblank with h | h
    · exact h3 (h1.symm.trans h)
    · exact h4 (h2.symm.trans h)

/-- Witness for C6 at a concrete input: one well-formed record, one with
a whitespace-only city. -/
theorem grouping_trims_and_filters_witness :
    ((("Jackson", "MS") ∈ groupKeys
        [⟨1, some " Jackson ", some "MS", some "Fraud"⟩,
         ⟨2, some "  ", some "MS", some "Theft"⟩]) ↔
      ∃ c ∈ [⟨1, some " Jackson ", some "MS", some "Fraud"⟩,
             ⟨2, some "  ", some "MS", some "Theft"⟩],
        pyStrip (CaseRecord.city_of_offense c |>.getD "") = "Jackson" ∧
        pyStrip (CaseRecord.state_of_offense c |>.getD "") = "MS" ∧
        "Jackson" ≠ "" ∧ "MS" ≠ "") ∧
    (∀ k, (⟨2, some "  ", some "MS", some "Theft"⟩ : CaseRecord) ∉
        groupedCases [⟨1, some " Jackson ", some "MS", some "Fraud"⟩,
                      ⟨2, some "  ", some "MS", some "Theft"⟩] k) :=
  ⟨(grouping_trims_and_filters _).2.1 ("Jackson", "MS"),
   (grouping_trims_and_filters _).2.2 _ (by decide) (by decide)⟩

end CyberLab

namespace CyberLab

/-- Claim C2: For every location key and coordinate pair, a successful
`put(key, lat, lon)` on the geocode cache followed by `get(key)` returns
exactly `(lat, lon)`. -/
theorem cache_roundtrip (writeOk : Bool) (now : String) (cache : Geocache)
    (key : String) (lat lon : Rat)
    (h : (add_cached_location_db writeOk now cache key lat lon).2 = true) :
    get_cached_location_db false
      (add_cached_location_db writeOk now cache key lat lon).1 key = some (lat, lon) := by
  cases writeOk with
  | false => simp [add_cached_location_db] at h
  | true =>
    simp [add_cached_location_db, get_cached_location_db, List.find?]

/-- Witness for C2 at a concrete input. -/
theorem cache_roundtrip_witness :
    (add_cached_location_db true "2024-01-01" [] "Jackson|MS" 32 (-90)).2 = true ∧
    get_cached_location_db false
      (add_cached_location_db true "2024-01-01" [] "Jackson|MS" 32 (-90)).1 "Jackson|MS"
      = some (32, -90) :=
  ⟨by decide, cache_roundtrip true "2024-01-01" [] "Jackson|MS" 32 (-90) (by decide)⟩

/-- Filtering for a key after filtering that key away yields nothing. -/
theorem filter_key_after_filter_ne (cache : Geocache) (key : String) :
    (cache.filter (fun e => !(e.location_key == key))).filter
      (fun e => e.location_key == key) = [] := by
  induction cache with
  | nil => rfl
  | cons a t ih =>
    by_cases h : a.location_key = key <;> simp [List.filter_cons, h, ih]

/-- Claim C3: The geocode cache holds at most one entry per location key:
after two successive successful `put` calls with the same key and
different coordinates, the rows whose key matches are exactly the single
row written by the later `put`, and `get` retrieves the later
coordinates. -/
theorem cache_upsert (now1 now2 : String) (cache : Geocache) (key : String)
    (lat1 lon1 lat2 lon2 : Rat) (hne : (lat1, lon1) ≠ (lat2, lon2)) :
    ((add_cached_location_db true now2
        (add_cached_location_db true now1 cache key lat1 lon1).1 key lat2 lon2).1.filter
        (fun e => e.location_key == key)) = [⟨key, lat2, lon2, now2⟩] ∧
    get_cached_location_db false
      (add_cached_location_db true now2
        (add_cached_location_db true now1 cache key lat1 lon1).1 key lat2 lon2).1 key
      = some (lat2, lon2) := by
  constructor
  · simp [add_cached_location_db, List.filter_cons, List.filter_filter]
  · simp [add_cached_location_db, get_cached_location_db, List.find?]

/-- Witness for C3 at a concrete input. -/
theorem cache_upsert_witness :
    (((1 : Rat), (2 : Rat)) ≠ ((3 : Rat), (4 : Rat))) ∧
    (((add_cached_location_db true "t2"
        (add_cached_location_db true "t1" [] "Jackson|MS" 1 2).1 "Jackson|MS" 3 4).1.filter
        (fun e => e.location_key == "Jackson|MS")) = [⟨"Jackson|MS", 3, 4, "t2"⟩] ∧
    get_cached_location_db false
      (add_cached_location_db true "t2"
        (add_cached_location_db true "t1" [] "Jackson|MS" 1 2).1 "Jackson|MS" 3 4).1 "Jackson|MS"
      = some (3, 4)) :=
  ⟨by decide, cache_upsert "t1" "t2" [] "Jackson|MS" 1 2 3 4 (by decide)⟩

/-- Under key-uniqueness, `find?` locates exactly the member row with the
sought key. -/
theorem find_entry_of_mem (cache : Geocache) (key : String) (e : GeoEntry)
    (hnd : (cache.map GeoEntry.location_key).Nodup)
    (he : e ∈ cache) (hk : e.location_key = key) :
    cache.find? (fun x => x.location_key == key) = some e := by
  induction cache with
  | nil => simp at he
  | cons a t ih =>
    rw [List.map_cons, List.nodup_cons] at hnd
    rcases List.mem_cons.mp he with rfl | het
    · simp [List.find?, hk]
    · have ha : ¬ a.location_key = key := by
        intro h
        exact hnd.1 (h ▸ hk ▸ List.mem_map_of_mem GeoEntry.location_key het)
      rw [List.find?_cons_of_neg _ (by simpa using ha)]
      exact ih hnd.2 het

/-- Claim C5: The cache lookup never raises to its caller: it is a total
function that returns `none` when the underlying read errors, `none` on a
miss, and the stored coordinate pair on a hit. -/
theorem cache_get_never_fails (dbError : Bool) (cache : Geocache) (key : String)
    (hnd : (cache.map GeoEntry.location_key).Nodup) :
    (dbError = true → get_cached_location_db dbError cache key = none) ∧
    ((∀ e ∈ cache, e.location_key ≠ key) →
        get_cached_location_db dbError cache key = none) ∧
    (∀ e ∈ cache, e.location_key = key → dbError = false →
        get_cached_location_db dbError cache key = some (e.latitude, e.longitude)) := by
  refine ⟨fun h => by simp [get_cached_location_db, h], fun hm => ?_, fun e he hk hdb => ?_⟩
  · cases dbError with
    | true => simp [get_cached_location_db]
    | false =>
      rw [get_cached_location_db, if_neg (by simp), List.find?_eq_none.mpr]
      intro a ha
      simpa using hm a ha
  · subst hdb
    rw [get_cached_location_db, if_neg (by simp), find_entry_of_mem cache key e hnd he hk]

/-- Witness for C5 at a concrete input. -/
theorem cache_get_never_fails_witness :
    (([⟨"Biloxi|MS", 30, -88, "t"⟩] : Geocache).map GeoEntry.location_key).Nodup ∧
    get_cached_location_db true [⟨"Biloxi|MS", 30, -88, "t"⟩] "Biloxi|MS" = none ∧
    get_cached_location_db false [⟨"Biloxi|MS", 30, -88, "t"⟩] "Biloxi|MS"
      = some (30, -88) :=
  ⟨by decide,
   (cache_get_never_fails true [⟨"Biloxi|MS", 30, -88, "t"⟩] "Biloxi|MS" (by decide)).1 rfl,
   (cache_get_never_fails false [⟨"Biloxi|MS", 30, -88, "t"⟩] "Biloxi|MS" (by decide)).2.2
     ⟨"Biloxi|MS", 30, -88, "t"⟩ (by decide) rfl rfl⟩

/-- Claim C9: The worker sleeps 1 second after processing each queue item
regardless of outcome (`time.sleep(1.0)` runs after the `try`/`except`):
successive provider calls are issued at least 1 second apart, and a run
over 3 queued misses spans at least 2 seconds of wall-clock time. -/
theorem worker_rate_limit (durs : List Rat) (h : ∀ d ∈ durs, 0 ≤ d) :
    List.Chain' (fun a b : Rat => a + 1 ≤ b) (workerCallTimes durs) ∧
    (durs.length = 3 → 2 ≤ workerFinishTime durs) := by
  refine ⟨chain_callTimesFrom durs 0 h, fun h3 => ?_⟩
  have hlow := foldl_time_lower durs 0 h
  rw [workerFinishTime]
  rw [h3] at hlow
  push_cast at hlow
  linarith

/-- Witness for C9 at a concrete input. -/
theorem worker_rate_limit_witness :
    (∀ d ∈ ([0, 0, 0] : List Rat), 0 ≤ d) ∧
    (List.Chain' (fun a b : Rat => a + 1 ≤ b) (workerCallTimes [0, 0, 0]) ∧
     (([0, 0, 0] : List Rat).length = 3 → 2 ≤ workerFinishTime [0, 0, 0])) :=
  ⟨by decide, worker_rate_limit [0, 0, 0] (by decide)⟩

/-- Claim C10: A new worker run starts by resetting the shared results
buffer to `[]` (`self._geocoded_results = []`, source line 1362): its
outcome is independent of whatever a previous run left undrained, and
every buffered result stems from the current queue — stale results never
produce markers. -/
theorem worker_resets_results_buffer (env : GeoEnv) (queue : List (String × String))
    (cache : Geocache) (prev1 prev2 : List GeoResult) :
    geocode_locations_worker env queue cache prev1
      = geocode_locations_worker env queue cache prev2 ∧
    ∀ r ∈ (geocode_locations_worker env queue cache prev1).2,
      (r.city, r.state) ∈ queue := by
  refine ⟨rfl, fun r hr => ?_⟩
  rw [geocode_locations_worker, workerGo_results, List.nil_append] at hr
  exact (filterMap_resultOf_keys_sublist env queue).subset
    (List.mem_map_of_mem (fun r => (r.city, r.state)) hr)

/-- Witness for C10 at a concrete input, with a non-empty stale buffer. -/
theorem worker_resets_results_buffer_witness :
    ((⟨"Jackson", "MS", 32, -90⟩ : GeoResult) ∈
      (geocode_locations_worker
        ⟨fun _ _ => GeoOutcome.success 32 (-90), fun _ _ => true, fun _ => false, "t"⟩
        [("Jackson", "MS")] [] [⟨"Stale", "XX", 1, 2⟩]).2) ∧
    ("Jackson", "MS") ∈ [("Jackson", "MS")] :=
  ⟨by decide,
   (worker_resets_results_buffer
     ⟨fun _ _ => GeoOutcome.success 32 (-90), fun _ _ => true, fun _ => false, "t"⟩
     [("Jackson", "MS")] [] [⟨"Stale", "XX", 1, 2⟩] []).2
     ⟨"Jackson", "MS", 32, -90⟩ (by decide)⟩

theorem groupKeys_toFinset (cases : List CaseRecord) :
    (groupKeys cases).toFinset = (cases.filterMap recordKey).toFinset := by
  ext k
  simp [List.mem_toFinset, mem_groupKeys, List.mem_filterMap]

theorem groupKeys_length_eq_card (cases : List CaseRecord) :
    (groupKeys cases).length = (cases.filterMap recordKey).toFinset.card := by
  rw [← List.toFinset_card_of_nodup (groupKeys_nodup cases), groupKeys_toFinset]

/-- When every provider lookup succeeds, the final marker keys of a
refresh are a permutation of the grouped location keys. -/
theorem refresh_markers_keys_perm (env : GeoEnv) (cases : List CaseRecord)
    (cache : Geocache) (prev : List GeoResult)
    (hg : ∀ city state, ∃ lat lon,
        env.geocode city state = GeoOutcome.success lat lon) :
    ((load_map_markers env cases cache prev).markers.map Prod.fst).Perm
      (groupKeys cases) := by
  have hhit := splitCached_hits_keys (cacheLookup env cache) (groupKeys cases)
  have hmiss := splitCached_misses (cacheLookup env cache) (groupKeys cases)
  have hnodupG := groupKeys_nodup cases
  have hhitnodup :
      ((splitCached (cacheLookup env cache) (groupKeys cases)).1.map Prod.fst).Nodup := by
    rw [hhit]; exact hnodupG.filter _
  have hmarkers0 := placeAll_eq_append cases
    (splitCached (cacheLookup env cache) (groupKeys cases)).1 []
    (by intro it _ hmem; simp at hmem) hhitnodup
  have hm0keys :
      (placeAll cases [] (splitCached (cacheLookup env cache) (groupKeys cases)).1).map
        Prod.fst
      = (splitCached (cacheLookup env cache) (groupKeys cases)).1.map Prod.fst := by
    rw [hmarkers0, List.nil_append, List.map_map]
    rfl
  have hpart := List.filter_append_perm
    (fun k => ((cacheLookup env cache) k).isSome) (groupKeys cases)
  by_cases he : (splitCached (cacheLookup env cache) (groupKeys cases)).2.isEmpty
  · rw [load_map_markers]
    simp only []
    rw [if_pos he]
    rw [hm0keys, hhit]
    have hnil : (groupKeys cases).filter
        (fun k => !((cacheLookup env cache) k).isSome) = [] := by
      rw [← hmiss]
      exact List.isEmpty_iff.mp he
    rw [hnil, List.append_nil] at hpart
    exact hpart
  · rw [load_map_markers]
    simp only []
    rw [if_neg he]
    have hres : (geocode_locations_worker env
        (splitCached (cacheLookup env cache) (groupKeys cases)).2 cache prev).2
        = (splitCached (cacheLookup env cache) (groupKeys cases)).2.filterMap
            (resultOf env) := by
      rw [geocode_locations_worker, workerGo_results, List.nil_append]
    have hitemkeys :
        (((geocode_locations_worker env
            (splitCached (cacheLookup env cache) (groupKeys cases)).2 cache prev).2.map
            (fun r => ((r.city, r.state), (r.lat, r.lon)))).map Prod.fst)
        = (splitCached (cacheLookup env cache) (groupKeys cases)).2 := by
      rw [hres, List.map_map]
      exact filterMap_resultOf_keys_of_success env hg _
    have hmissnodup :
        (splitCached (cacheLookup env cache) (groupKeys cases)).2.Nodup := by
      rw [hmiss]; exact hnodupG.filter _
    have hdisj : ∀ it ∈ (geocode_locations_worker env
          (splitCached (cacheLookup env cache) (groupKeys cases)).2 cache prev).2.map
          (fun r => ((r.city, r.state), (r.lat, r.lon))),
        it.1 ∉ (placeAll cases []
          (splitCached (cacheLookup env cache) (groupKeys cases)).1).map Prod.fst := by
      intro it hit hcon
      have h1 : it.1 ∈ (splitCached (cacheLookup env cache) (groupKeys cases)).2 := by
        rw [← hitemkeys]
        exact List.mem_map_of_mem Prod.fst hit
      rw [hm0keys, hhit] at hcon
      rw [hmiss] at h1
      have := (List.mem_filter.mp hcon).2
      have h2 := (List.mem_filter.mp h1).2
      rw [this] at h2
      cases h2
  -- final assembly of the non-empty case
    rw [placeAll_eq_append cases _ _ hdisj (by rw [hitemkeys]; exact hmissnodup)]
    rw [List.map_append, List.map_map, hm0keys, hhit]
    have hkeys2 : ((geocode_locations_worker env
        (splitCached (cacheLookup env cache) (groupKeys cases)).2 cache prev).2.map
        (fun r => ((r.city, r.state), (r.lat, r.lon)))).map
        (Prod.fst ∘ fun it => (it.1, mkMarker cases it.1.1 it.1.2 it.2))
        = (splitCached (cacheLookup env cache) (groupKeys cases)).2 := hitemkeys
    rw [hkeys2, hmiss]
    exact hpart

/-- The markers placed synchronously during the cached phase of a
refresh are keyed exactly by the grouped keys that hit the cache. -/
theorem markers0_keys (env : GeoEnv) (cases : List CaseRecord) (cache : Geocache) :
    (placeAll cases []
        (splitCached (cacheLookup env cache) (groupKeys cases)).1).map Prod.fst
      = (groupKeys cases).filter (fun k => ((cacheLookup env cache) k).isSome) := by
  rw [placeAll_eq_append cases _ [] (by intro it _ h; simp at h)
      (by rw [splitCached_hits_keys]; exact (groupKeys_nodup cases).filter _),
    List.nil_append, List.map_map]
  have hcomp : List.map (Prod.fst ∘ fun it => (it.1, mkMarker cases it.1.1 it.1.2 it.2))
      (splitCached (cacheLookup env cache) (groupKeys cases)).1
      = List.map Prod.fst (splitCached (cacheLookup env cache) (groupKeys cases)).1 := rfl
  rw [hcomp, splitCached_hits_keys]

/-- Claim C4: A raised provider lookup for the first queued location does
not abort the worker: with queue [A, B] where A raises and B succeeds,
the worker still processes B, B's result is the (whole) results buffer,
and B receives a placed marker with the obtained coordinates. -/
theorem worker_survives_raise (env : GeoEnv) (cases : List CaseRecord)
    (cache : Geocache) (prev : List GeoResult) (A B : String × String)
    (lat lon : Rat)
    (hpend : (load_map_markers env cases cache prev).pending = [A, B])
    (hA : env.geocode A.1 A.2 = GeoOutcome.raised)
    (hB : env.geocode B.1 B.2 = GeoOutcome.success lat lon) :
    (load_map_markers env cases cache prev).results = [⟨B.1, B.2, lat, lon⟩] ∧
    ∃ m, (B, m) ∈ (load_map_markers env cases cache prev).markers ∧
      m.lat = lat ∧ m.lon = lon := by
  by_cases he : (splitCached (cacheLookup env cache) (groupKeys cases)).2.isEmpty
  · rw [load_map_markers, if_pos he] at hpend
    simp at hpend
  · rw [load_map_markers, if_neg he] at hpend
    have hmiss2 : (splitCached (cacheLookup env cache) (groupKeys cases)).2 = [A, B] :=
      hpend
    have hresult : (geocode_locations_worker env
        (splitCached (cacheLookup env cache) (groupKeys cases)).2 cache prev).2
        = [⟨B.1, B.2, lat, lon⟩] := by
      rw [geocode_locations_worker, workerGo_results, List.nil_append, hmiss2]
      simp [List.filterMap_cons, resultOf, hA, hB]
    have hBmiss : ((cacheLookup env cache) B).isSome ≠ true := by
      have hBin : B ∈ (splitCached (cacheLookup env cache) (groupKeys cases)).2 := by
        rw [hmiss2]
        exact List.mem_cons_of_mem _ (List.mem_cons_self _ _)
      rw [splitCached_misses] at hBin
      have hflag := (List.mem_filter.mp hBin).2
      simp only [Bool.not_eq_true'] at hflag
      simp [hflag]
    have hBnotin : B ∉ (placeAll cases []
        (splitCached (cacheLookup env cache) (groupKeys cases)).1).map Prod.fst := by
      intro hcon
      rw [markers0_keys] at hcon
      exact hBmiss (List.mem_filter.mp hcon).2
    have hfinal : (B, mkMarker cases B.1 B.2 (lat, lon)) ∈ placeAll cases
        (placeAll cases [] (splitCached (cacheLookup env cache) (groupKeys cases)).1)
        ((geocode_locations_worker env
          (splitCached (cacheLookup env cache) (groupKeys cases)).2 cache prev).2.map
          (fun r => ((r.city, r.state), (r.lat, r.lon)))) := by
      rw [hresult, List.map_cons, List.map_nil]
      rw [placeAll_eq_append cases _ _ ?_ (by simp)]
      · exact List.mem_append_right _ (by simp)
      · intro it hit
        rw [List.mem_singleton] at hit
        subst hit
        exact hBnotin
    constructor
    · rw [load_map_markers, if_neg he]
      exact hresult
    · refine ⟨mkMarker cases B.1 B.2 (lat, lon), ?_, rfl, rfl⟩
      rw [load_map_markers, if_neg he]
      exact hfinal

/-- Witness for C4 at a concrete input: two uncached locations, the
first of which times out. -/
theorem worker_survives_raise_witness :
    ((load_map_markers
        ⟨fun city _ => if city == "Jackson" then GeoOutcome.raised
            else GeoOutcome.success 30 (-88),
          fun _ _ => true, fun _ => false, "t"⟩
        [⟨1, some "Jackson", some "MS", some "Fraud"⟩,
         ⟨2, some "Biloxi", some "MS", some "Theft"⟩] [] []).pending
      = [("Jackson", "MS"), ("Biloxi", "MS")]) ∧
    ((load_map_markers
        ⟨fun city _ => if city == "Jackson" then GeoOutcome.raised
            else GeoOutcome.success 30 (-88),
          fun _ _ => true, fun _ => false, "t"⟩
        [⟨1, some "Jackson", some "MS", some "Fraud"⟩,
         ⟨2, some "Biloxi", some "MS", some "Theft"⟩] [] []).results
      = [⟨"Biloxi", "MS", 30, -88⟩] ∧
     ∃ m, (("Biloxi", "MS"), m) ∈ (load_map_markers
        ⟨fun city _ => if city == "Jackson" then GeoOutcome.raised
            else GeoOutcome.success 30 (-88),
          fun _ _ => true, fun _ => false, "t"⟩
        [⟨1, some "Jackson", some "MS", some "Fraud"⟩,
         ⟨2, some "Biloxi", some "MS", some "Theft"⟩] [] []).markers ∧
       m.lat = 30 ∧ m.lon = -88) :=
  ⟨by decide,
   worker_survives_raise
     ⟨fun city _ => if city == "Jackson" then GeoOutcome.raised
         else GeoOutcome.success 30 (-88),
       fun _ _ => true, fun _ => false, "t"⟩
     [⟨1, some "Jackson", some "MS", some "Fraud"⟩,
      ⟨2, some "Biloxi", some "MS", some "Theft"⟩] [] []
     ("Jackson", "MS") ("Biloxi", "MS") 30 (-88) (by decide) (by decide) (by decide)⟩

/-- Claim C8: A failed cache write for a successfully geocoded location
does not block marker placement in the current run: the result is still
buffered, the marker is still placed with the coordinates just obtained,
and the location's key remains absent from the cache afterwards. -/
theorem cache_write_failure_nonblocking (env : GeoEnv) (cases : List CaseRecord)
    (cache : Geocache) (prev : List GeoResult) (B : String × String) (lat lon : Rat)
    (hpend : B ∈ (load_map_markers env cases cache prev).pending)
    (hB : env.geocode B.1 B.2 = GeoOutcome.success lat lon)
    (hw : env.writeOk B.1 B.2 = false)
    (hnc : locationKey B.1 B.2 ∉ cache.map GeoEntry.location_key)
    (hcol : ∀ p ∈ (load_map_markers env cases cache prev).pending,
        locationKey p.1 p.2 = locationKey B.1 B.2 → p = B) :
    (⟨B.1, B.2, lat, lon⟩ : GeoResult) ∈
      (load_map_markers env cases cache prev).results ∧
    (∃ m, (B, m) ∈ (load_map_markers env cases cache prev).markers ∧
        m.lat = lat ∧ m.lon = lon) ∧
    locationKey B.1 B.2 ∉
      (load_map_markers env cases cache prev).cache.map GeoEntry.location_key := by
  by_cases he : (splitCached (cacheLookup env cache) (groupKeys cases)).2.isEmpty
  · rw [load_map_markers, if_pos he] at hpend
    simp at hpend
  · rw [load_map_markers, if_neg he] at hpend hcol
    have hpend2 : B ∈ (splitCached (cacheLookup env cache) (groupKeys cases)).2 := hpend
    have hcol2 : ∀ p ∈ (splitCached (cacheLookup env cache) (groupKeys cases)).2,
        locationKey p.1 p.2 = locationKey B.1 B.2 → p = B := hcol
    have hres : (geocode_locations_worker env
        (splitCached (cacheLookup env cache) (groupKeys cases)).2 cache prev).2
        = (splitCached (cacheLookup env cache) (groupKeys cases)).2.filterMap
            (resultOf env) := by
      rw [geocode_locations_worker, workerGo_results, List.nil_append]
    have hrmem : (⟨B.1, B.2, lat, lon⟩ : GeoResult) ∈
        (geocode_locations_worker env
          (splitCached (cacheLookup env cache) (groupKeys cases)).2 cache prev).2 := by
      rw [hres]
      exact List.mem_filterMap.mpr ⟨B, hpend2, by simp [resultOf, hB]⟩
    refine ⟨?_, ?_, ?_⟩
    · rw [load_map_markers, if_neg he]
      exact hrmem
    · have hitemkeys : (((geocode_locations_worker env
          (splitCached (cacheLookup env cache) (groupKeys cases)).2 cache prev).2.map
          (fun r => ((r.city, r.state), (r.lat, r.lon)))).map Prod.fst).Sublist
          (splitCached (cacheLookup env cache) (groupKeys cases)).2 := by
        rw [hres, List.map_map]
        exact filterMap_resultOf_keys_sublist env _
      have hmissnodup :
          (splitCached (cacheLookup env cache) (groupKeys cases)).2.Nodup := by
        rw [splitCached_misses]
        exact (groupKeys_nodup cases).filter _
      have hdisj : ∀ it ∈ (geocode_locations_worker env
            (splitCached (cacheLookup env cache) (groupKeys cases)).2 cache prev).2.map
            (fun r => ((r.city, r.state), (r.lat, r.lon))),
          it.1 ∉ (placeAll cases []
            (splitCached (cacheLookup env cache) (groupKeys cases)).1).map Prod.fst := by
        intro it hit hcon
        have h1 : it.1 ∈ (splitCached (cacheLookup env cache) (groupKeys cases)).2 :=
          hitemkeys.subset (List.mem_map_of_mem Prod.fst hit)
        rw [markers0_keys] at hcon
        rw [splitCached_misses] at h1
        have hp := (List.mem_filter.mp hcon).2
        have hq := (List.mem_filter.mp h1).2
        rw [hp] at hq
        cases hq
      have hitem : ((B.1, B.2), (lat, lon)) ∈ (geocode_locations_worker env
          (splitCached (cacheLookup env cache) (groupKeys cases)).2 cache prev).2.map
          (fun r => ((r.city, r.state), (r.lat, r.lon))) :=
        List.mem_map_of_mem _ hrmem
      have hfinal : (B, mkMarker cases B.1 B.2 (lat, lon)) ∈ placeAll cases
          (placeAll cases [] (splitCached (cacheLookup env cache) (groupKeys cases)).1)
          ((geocode_locations_worker env
            (splitCached (cacheLookup env cache) (groupKeys cases)).2 cache prev).2.map
            (fun r => ((r.city, r.state), (r.lat, r.lon)))) := by
        rw [placeAll_eq_append cases _ _ hdisj (hmissnodup.sublist hitemkeys)]
        exact List.mem_append_right _ (List.mem_map_of_mem _ hitem)
      refine ⟨mkMarker cases B.1 B.2 (lat, lon), ?_, rfl, rfl⟩
      rw [load_map_markers, if_neg he]
      exact hfinal
    · rw [load_map_markers, if_neg he]
      intro hcon
      have hcon2 : locationKey B.1 B.2 ∈ ((workerGo env
          (splitCached (cacheLookup env cache) (groupKeys cases)).2 cache []).1).map
          GeoEntry.location_key := hcon
      rcases workerGo_cache_keys env _ cache [] _ hcon2 with hin | ⟨p, hp, hkey, hwok⟩
      · exact hnc hin
      · have hpB : p = B := hcol2 p hp hkey
        rw [hpB, hw] at hwok
        cases hwok

/-- Witness for C8 at a concrete input: one uncached location whose
cache write fails. -/
theorem cache_write_failure_nonblocking_witness :
    (("Jackson", "MS") ∈ (load_map_markers
        ⟨fun _ _ => GeoOutcome.success 32 (-90), fun _ _ => false, fun _ => false, "t"⟩
        [⟨1, some "Jackson", some "MS", some "Fraud"⟩] [] []).pending) ∧
    ((⟨"Jackson", "MS", 32, -90⟩ : GeoResult) ∈ (load_map_markers
        ⟨fun _ _ => GeoOutcome.success 32 (-90), fun _ _ => false, fun _ => false, "t"⟩
        [⟨1, some "Jackson", some "MS", some "Fraud"⟩] [] []).results ∧
     (∃ m, (("Jackson", "MS"), m) ∈ (load_map_markers
        ⟨fun _ _ => GeoOutcome.success 32 (-90), fun _ _ => false, fun _ => false, "t"⟩
        [⟨1, some "Jackson", some "MS", some "Fraud"⟩] [] []).markers ∧
       m.lat = 32 ∧ m.lon = -90) ∧
     locationKey "Jackson" "MS" ∉ (load_map_markers
        ⟨fun _ _ => GeoOutcome.success 32 (-90), fun _ _ => false, fun _ => false, "t"⟩
        [⟨1, some "Jackson", some "MS", some "Fraud"⟩] [] []).cache.map
        GeoEntry.location_key) :=
  ⟨by decide,
   cache_write_failure_nonblocking
     ⟨fun _ _ => GeoOutcome.success 32 (-90), fun _ _ => false, fun _ => false, "t"⟩
     [⟨1, some "Jackson", some "MS", some "Fraud"⟩] [] [] ("Jackson", "MS") 32 (-90)
     (by decide) rfl rfl (by decide) (by decide)⟩

/-- Claim C1 as amended: If every uncached location geocodes successfully,
then after a completed refresh the placed markers have pairwise-distinct
keys and their number equals the number of distinct non-empty trimmed
(city, state) pairs among the case records. -/
theorem refresh_marker_count (env : GeoEnv) (cases : List CaseRecord)
    (cache : Geocache) (prev : List GeoResult)
    (hg : ∀ city state, ∃ lat lon,
        env.geocode city state = GeoOutcome.success lat lon) :
    ((load_map_markers env cases cache prev).markers.map Prod.fst).Nodup ∧
    (load_map_markers env cases cache prev).markers.length
      = (cases.filterMap recordKey).toFinset.card := by
  have hperm := refresh_markers_keys_perm env cases cache prev hg
  refine ⟨hperm.nodup_iff.mpr (groupKeys_nodup cases), ?_⟩
  rw [← groupKeys_length_eq_card, ← hperm.length_eq, List.length_map]

/-- Witness for C1 (amended) at a concrete input: one cached and one
uncached location. -/
theorem refresh_marker_count_witness :
    (∀ city state, ∃ lat lon,
      (⟨fun _ _ => GeoOutcome.success 32 (-90), fun _ _ => true, fun _ => false,
        "t"⟩ : GeoEnv).geocode city state = GeoOutcome.success lat lon) ∧
    (((load_map_markers
        ⟨fun _ _ => GeoOutcome.success 32 (-90), fun _ _ => true, fun _ => false, "t"⟩
        [⟨1, some "Jackson", some "MS", some "Fraud"⟩,
         ⟨2, some "Biloxi", some "MS", some "Theft"⟩]
        [⟨"Biloxi|MS", 30, -88, "t0"⟩] []).markers.map Prod.fst).Nodup ∧
     (load_map_markers
        ⟨fun _ _ => GeoOutcome.success 32 (-90), fun _ _ => true, fun _ => false, "t"⟩
        [⟨1, some "Jackson", some "MS", some "Fraud"⟩,
         ⟨2, some "Biloxi", some "MS", some "Theft"⟩]
        [⟨"Biloxi|MS", 30, -88, "t0"⟩] []).markers.length
       = (([⟨1, some "Jackson", some "MS", some "Fraud"⟩,
            ⟨2, some "Biloxi", some "MS", some "Theft"⟩] :
            List CaseRecord).filterMap recordKey).toFinset.card) :=
  ⟨fun _ _ => ⟨32, -90, rfl⟩,
   refresh_marker_count
     ⟨fun _ _ => GeoOutcome.success 32 (-90), fun _ _ => true, fun _ => false, "t"⟩
     [⟨1, some "Jackson", some "MS", some "Fraud"⟩,
      ⟨2, some "Biloxi", some "MS", some "Theft"⟩]
     [⟨"Biloxi|MS", 30, -88, "t0"⟩] [] (fun _ _ => ⟨32, -90, rfl⟩)⟩

/-- Counterexample to claim C1: as stated, the claim fails: with one record
for (Jackson, MS), an empty cache, and a provider that finds no match,
the completed refresh places 0 markers while there is 1 distinct
non-empty (city, state) pair. -/
theorem refresh_marker_count_counterexample :
    (load_map_markers
      ⟨fun _ _ => GeoOutcome.noMatch, fun _ _ => true, fun _ => false, "t"⟩
      [⟨1, some "Jackson", some "MS", some "Fraud"⟩] [] []).markers.length = 0 ∧
    (([⟨1, some "Jackson", some "MS", some "Fraud"⟩] :
        List CaseRecord).filterMap recordKey).toFinset.card = 1 ∧
    (0 : Nat) ≠ 1 :=
  ⟨by decide, by decide, by decide⟩

theorem offenses_sorted (cs : List CaseRecord) :
    List.Sorted (fun a b : String => pyStrLe a b = true) (offenses cs) := by
  haveI : IsTotal String (fun a b => pyStrLe a b = true) := ⟨pyStrLe_total⟩
  haveI : IsTrans String (fun a b => pyStrLe a b = true) :=
    ⟨fun _ _ _ => pyStrLe_trans⟩
  exact List.sorted_insertionSort _ _

theorem offenses_nodup (cs : List CaseRecord) : (offenses cs).Nodup :=
  (List.perm_insertionSort _ _).nodup_iff.mpr (List.nodup_dedup _)

theorem mem_offenses (cs : List CaseRecord) (s : String) :
    s ∈ offenses cs ↔ ∃ c ∈ cs, c.offense_type.getD "" ≠ "" ∧
      pyStrip (c.offense_type.getD "") = s := by
  rw [offenses, (List.perm_insertionSort _ _).mem_iff, List.mem_dedup, offenseValues]
  simp only [List.mem_map, List.mem_filter, Bool.not_eq_eq_eq_not, Bool.not_true,
    beq_eq_false_iff_ne, ne_eq]
  constructor
  · rintro ⟨c, ⟨hc, hne⟩, hs⟩
    exact ⟨c, hc, hne, hs⟩
  · rintro ⟨c, hc, hne, hs⟩
    exact ⟨c, ⟨hc, hne⟩, hs⟩

/-- Claim C7 as amended: the function `_place_map_marker` builds the summary from the
sorted, duplicate-free list of the *stripped* offense values of the
records grouped under the key whose *raw* offense field is non-empty (a
whitespace-only offense field therefore contributes the empty string
rather than being dropped); the text 'No offenses recorded' is used when
no record of the group has a non-empty raw offense field.  The Jackson
scenario holds as stated: the two records produce exactly one geocode
work item for (Jackson, MS), and the placed marker's summary lists both
"Fraud" and "Theft". -/
theorem marker_summary_offenses (cs : List CaseRecord) :
    List.Sorted (fun a b : String => pyStrLe a b = true) (offenses cs) ∧
    (offenses cs).Nodup ∧
    (∀ s, s ∈ offenses cs ↔ ∃ c ∈ cs, c.offense_type.getD "" ≠ "" ∧
        pyStrip (c.offense_type.getD "") = s) ∧
    ((∀ c ∈ cs, c.offense_type.getD "" = "") →
        offense_str cs = "No offenses recorded") ∧
    ((load_map_markers
        ⟨fun _ _ => GeoOutcome.success 32 (-90), fun _ _ => true, fun _ => false, "t"⟩
        [⟨1, some "Jackson", some "MS", some "Fraud"⟩,
         ⟨2, some "Jackson", some "MS", some "Theft"⟩] [] []).pending
      = [("Jackson", "MS")] ∧
     (load_map_markers
        ⟨fun _ _ => GeoOutcome.success 32 (-90), fun _ _ => true, fun _ => false, "t"⟩
        [⟨1, some "Jackson", some "MS", some "Fraud"⟩,
         ⟨2, some "Jackson", some "MS", some "Theft"⟩] [] []).markers
      = [(("Jackson", "MS"),
          ⟨32, -90, "Jackson, MS\nOffense Types: Fraud, Theft"⟩)]) := by
  refine ⟨offenses_sorted cs, offenses_nodup cs, mem_offenses cs, fun hall => ?_,
    by decide, by decide⟩
  have hnil : offenses cs = [] := by
    rw [offenses, offenseValues]
    have : cs.filter (fun c => !(c.offense_type.getD "" == "")) = [] := by
      rw [List.filter_eq_nil_iff]
      intro c hc
      simp [hall c hc]
    rw [this]
    rfl
  rw [offense_str, hnil]
  rfl

/-- Witness for C7 (amended) at a concrete input. -/
theorem marker_summary_offenses_witness :
    ("Fraud" ∈ offenses [⟨1, some "Jackson", some "MS", some "Fraud"⟩,
        ⟨2, some "Jackson", some "MS", some "Theft"⟩] ↔
      ∃ c ∈ [(⟨1, some "Jackson", some "MS", some "Fraud"⟩ : CaseRecord),
             ⟨2, some "Jackson", some "MS", some "Theft"⟩],
        (c.offense_type.getD "") ≠ "" ∧
        pyStrip (c.offense_type.getD "") = "Fraud") ∧
    ((∀ c ∈ ([⟨1, some "J", some "MS", none⟩] : List CaseRecord),
        (c.offense_type.getD "") = "") ∧
      offense_str [⟨1, some "J", some "MS", none⟩] = "No offenses recorded") :=
  ⟨(marker_summary_offenses _).2.2.1 "Fraud",
   by decide,
   (marker_summary_offenses _).2.2.2.1 (by decide)⟩

/-- Counterexample to claim C7: as stated, the claim fails: a record whose
offense field is a single space has no non-empty offense type, yet the
summary is not 'No offenses recorded' — the whitespace-only value is
stripped to the empty string and joined into the summary. -/
theorem marker_summary_offenses_counterexample :
    offenses [⟨1, some "Jackson", some "MS", some " "⟩] = [""] ∧
    info_text "Jackson" "MS"
      (groupedCases [⟨1, some "Jackson", some "MS", some " "⟩] ("Jackson", "MS"))
      = "Jackson, MS\nOffense Types: " ∧
    ("Jackson, MS\nOffense Types: " : String)
      ≠ "Jackson, MS\nOffense Types: No offenses recorded" :=
  ⟨by decide, by decide, by decide⟩

end CyberLab
